import Mathlib

/-!
Shallow embedding of the streaming speech-translation gateway (Go backend,
package `gospeech` plus its handler and service layers).

Go strings are embedded as lists of characters, Go maps as association
lists.  Wall-clock derived fields (timestamps, generated UUIDs) are threaded
explicitly as parameters; UUID freshness is modelled by a counter supply.
-/

namespace SpeechGateway

/-- A Go string, embedded as its list of characters. -/
abbrev GoStr := List Char

/-- Embed a Lean string literal as a `GoStr`. -/
def gs (s : String) : GoStr := s.data

/-- The whitespace test of Go `strings.TrimSpace` (`unicode.IsSpace`),
restricted to the Latin-1 whitespace characters; the language tags of
interest contain at most ASCII whitespace. -/
def goIsSpace (c : Char) : Bool :=
  c == ' ' || c == '\t' || c == '\n' || c == '\r' ||
  c == Char.ofNat 11 || c == Char.ofNat 12 || c == Char.ofNat 0x85 || c == Char.ofNat 0xA0

/-- Go `strings.TrimSpace`. -/
def goTrimSpace (s : GoStr) : GoStr :=
  ((s.dropWhile goIsSpace).reverse.dropWhile goIsSpace).reverse

/-- Go `strings.ToLower` (ASCII letters; all inputs of interest are ASCII). -/
def goToLower (s : GoStr) : GoStr := s.map Char.toLower

/-- Go `strings.ToUpper` (ASCII letters). -/
def goToUpper (s : GoStr) : GoStr := s.map Char.toUpper

/-- Go `strings.Split s sep` for a one-character separator `sep`. -/
def goSplitChar (sep : Char) : GoStr → List GoStr
  | [] => [[]]
  | c :: cs =>
    match goSplitChar sep cs with
    | [] => [[]]
    | h :: t => if c = sep then [] :: h :: t else (c :: h) :: t

/-- Go `strings.HasPrefix s pre`. -/
def goHasPref : GoStr → GoStr → Bool
  | _, [] => true
  | [], _ :: _ => false
  | c :: cs, p :: ps => c == p && goHasPref cs ps

/-- Go `strings.TrimPrefix s pre`. -/
def goTrimPref (s pre : GoStr) : GoStr :=
  if goHasPref s pre then s.drop pre.length else s

/-- The bare two-letter language lookup table (`langMap`) of
`normalizeLanguageCode` in `backend/gospeech/translation.go`. -/
def langMap : List (GoStr × GoStr) :=
  [(gs "ja", gs "ja-JP"), (gs "en", gs "en-US"), (gs "zh", gs "zh-CN"), (gs "ko", gs "ko-KR"),
   (gs "es", gs "es-ES"), (gs "fr", gs "fr-FR"), (gs "de", gs "de-DE"), (gs "it", gs "it-IT"),
   (gs "pt", gs "pt-BR"), (gs "ru", gs "ru-RU"), (gs "ar", gs "ar-SA"), (gs "hi", gs "hi-IN"),
   (gs "th", gs "th-TH"), (gs "vi", gs "vi-VN"), (gs "id", gs "id-ID"), (gs "ms", gs "ms-MY")]

/-- `normalizeLanguageCode` from `backend/gospeech/translation.go` lines
1135-1194: trims, then for source languages either re-cases a hyphenated
tag as `lang-REGION` (requiring the split on `-` to yield exactly two
parts) or looks up a bare code in `langMap`; for target languages keeps
only the lowercased part before the first hyphen (or the whole tag).
Failure is reported as the empty string. -/
def normalizeLanguageCode (lang0 : GoStr) (isSourceLanguage : Bool) : GoStr :=
  let lang := goTrimSpace lang0
  if lang = [] then []
  else if isSourceLanguage then
    if lang.contains '-' then
      match goSplitChar '-' lang with
      | [p0, p1] => goToLower p0 ++ '-' :: goToUpper p1
      | _ => []
    else
      match List.lookup (goToLower lang) langMap with
      | some normalized => normalized
      | none => []
  else
    if lang.contains '-' then goToLower ((goSplitChar '-' lang).headI)
    else goToLower lang

/-! ### Audio ingress buffer (`PushAudioInputStream`, `backend/gospeech/audio.go`) -/

/-- `PushAudioInputStream` state: the buffered channel contents (capacity
100 chunks) and the `closed` flag.  The `format` field plays no role in
the stream operations and is omitted. -/
structure PushAudioInputStream where
  buffer : List (List Nat)
  closed : Bool
deriving DecidableEq

/-- `NewPushAudioInputStream`: empty channel, not closed. -/
def newPushStream : PushAudioInputStream := ⟨[], false⟩

/-- Outcome of `PushAudioInputStream.Write`: the returned byte count, the
`stream is closed` error, or a blocked channel send (buffer full). -/
inductive WriteOutcome
  | ok (n : Nat)
  | errClosed
  | blocked
deriving DecidableEq

/-- `PushAudioInputStream.Write` (audio.go lines 148-159): errors when
closed, otherwise copies the data and enqueues it on the channel (a send
on a full 100-slot channel blocks). -/
def pushWrite (s : PushAudioInputStream) (data : List Nat) :
    PushAudioInputStream × WriteOutcome :=
  if s.closed then (s, .errClosed)
  else if s.buffer.length < 100 then (⟨s.buffer ++ [data], s.closed⟩, .ok data.length)
  else (s, .blocked)

/-- Outcome of `PushAudioInputStream.Read`: end of stream, a dequeued
chunk (`n` copied bytes and the bytes themselves), or `(0, nil)` when no
data is available. -/
inductive ReadOutcome
  | eof
  | chunk (n : Nat) (bytes : List Nat)
  | noData
deriving DecidableEq

/-- `PushAudioInputStream.Read` (audio.go lines 162-175): returns `io.EOF`
as soon as `closed` is set (before consulting the buffered channel),
otherwise dequeues one chunk and copies up to `dstLen` bytes, or reports
no data. -/
def pushRead (s : PushAudioInputStream) (dstLen : Nat) :
    PushAudioInputStream × ReadOutcome :=
  if s.closed then (s, .eof)
  else
    match s.buffer with
    | [] => (s, .noData)
    | d :: rest => (⟨rest, s.closed⟩, .chunk (min dstLen d.length) (d.take dstLen))

/-- `PushAudioInputStream.Close` (audio.go lines 178-182): sets `closed`
and closes the channel; buffered chunks stay queued. -/
def pushClose (s : PushAudioInputStream) : PushAudioInputStream :=
  ⟨s.buffer, true⟩

/-- A sequence of `Write` calls; `none` when some write does not succeed. -/
def pushWriteSeq (s : PushAudioInputStream) : List (List Nat) → Option PushAudioInputStream
  | [] => some s
  | c :: cs =>
    match pushWrite s c with
    | (s', .ok _) => pushWriteSeq s' cs
    | _ => none

/-- The outcomes of `k` successive `Read` calls with destination size `dstLen`. -/
def pushReadSeq (s : PushAudioInputStream) (dstLen : Nat) : Nat → List ReadOutcome
  | 0 => []
  | k + 1 =>
    let (s', r) := pushRead s dstLen
    r :: pushReadSeq s' dstLen k

/-! ### Upstream protocol codec (`backend/gospeech/translation.go`) -/

/-- A JSON value, the target of Go `json.Unmarshal` into `interface\x7b\x7d`. -/
inductive JValue
  | jnull
  | jbool (b : Bool)
  | jnum (n : Int)
  | jstr (s : GoStr)
  | jarr (elems : List JValue)
  | jobj (fields : List (GoStr × JValue))

/-- Lookup in a decoded JSON object (Go map access; keys are unique). -/
def jlookup (fields : List (GoStr × JValue)) (k : GoStr) : Option JValue :=
  List.lookup k fields

/-- Go `strings.Split s "\r\n"`: split on the two-character CRLF separator. -/
def splitCRLF : GoStr → List GoStr
  | [] => [[]]
  | [c] => [[c]]
  | c1 :: c2 :: rest =>
    if c1 = '\r' ∧ c2 = '\n' then [] :: splitCRLF rest
    else
      match splitCRLF (c2 :: rest) with
      | [] => [[c1]]
      | h :: t => (c1 :: h) :: t

/-- Path extraction of `receiveResults` (translation.go lines 1036-1043):
the first CRLF-separated header line with a `Path:` marker, with the
marker removed and the remainder trimmed; empty when no line matches. -/
def extractPath (headers : GoStr) : GoStr :=
  match (splitCRLF headers).find? (fun line => goHasPref line (gs "Path:")) with
  | some line => goTrimSpace (goTrimPref line (gs "Path:"))
  | none => []

/-- `ResultReason` (gospeech enums). -/
inductive ResultReason
  | recognizedSpeech
  | noMatch
  | canceled
  | translatedSpeech
deriving DecidableEq

/-- `TranslationRecognitionResult` as built by `receiveResults`.  The
`ResultID`, `Offset` and `Duration` fields are wall-clock derived
constants and are omitted. -/
structure TranslationRecognitionResult where
  text : GoStr
  reason : ResultReason
  translations : List (GoStr × GoStr)
deriving DecidableEq

/-- Result construction for a `speech.phrase` frame with `"type":"final"`
(translation.go lines 1055-1082): `Text` is `NBest[0].Display` when that
chain of type assertions succeeds (else empty), and `Translations`
collects the string-valued entries of the `Translations` object. -/
def buildPhraseResult (response : List (GoStr × JValue)) : TranslationRecognitionResult :=
  let text :=
    match jlookup response (gs "NBest") with
    | some (.jarr (first :: _)) =>
      match first with
      | .jobj firstResult =>
        match jlookup firstResult (gs "Display") with
        | some (.jstr display) => display
        | _ => []
      | _ => []
    | _ => []
  let translations :=
    match jlookup response (gs "Translations") with
    | some (.jobj ts) =>
      ts.filterMap (fun kv => match kv.2 with | .jstr t => some (kv.1, t) | _ => none)
    | _ => []
  { text := text, reason := .translatedSpeech, translations := translations }

/-- An inbound upstream WebSocket message.  For text frames the split on
the first blank line and the `json.Unmarshal` of the body into a Go map
are modelled by the pre-parsed `body` (`none` = the body failed to parse
as a JSON object). -/
inductive RecvMsg
  | textMsg (headerBlock : GoStr) (body : Option (List (GoStr × JValue)))
  | binaryMsg (data : List Nat)

/-- `speechServiceConnection.receiveResults` (translation.go lines
1006-1089): dispatches on the `Path` header; `turn.start` and every
unrecognized path yield no result; `speech.phrase` yields a final result
exactly when the body's `type` field is the JSON string `"final"`;
binary messages yield no result. -/
def receiveResults (msg : RecvMsg) : Except GoStr (Option TranslationRecognitionResult) :=
  match msg with
  | .binaryMsg _ => .ok none
  | .textMsg headers body =>
    match body with
    | none => .error (gs "JSON parse error")
    | some response =>
      let messagePath := extractPath headers
      if messagePath = gs "turn.start" then .ok none
      else if messagePath = gs "speech.phrase" then
        let isFinal :=
          match jlookup response (gs "type") with
          | some (.jstr s) => s == gs "final"
          | _ => false
        if isFinal then .ok (some (buildPhraseResult response)) else .ok none
      else .ok none

/-! ### Outbound encoder (`speechServiceConnection.sendAudioData`) -/

/-- A frame written to the upstream WebSocket.  Text frames are abstracted
to their `Path` and `X-RequestId` header fields (the `X-Timestamp` header
and the JSON config body are wall-clock / formatting detail). -/
inductive WireFrame
  | textFrame (path : GoStr) (requestId : Nat)
  | binaryFrame (data : List Nat)
deriving DecidableEq

/-- `sendAudioData` (translation.go lines 908-1003): generates a fresh
request id per call (modelled by the explicit `requestId` supply),
validates the normalized source and target languages, then writes a
`speech.config` text frame, a `Path: audio` text frame with the same
request id, and one binary frame of audio bytes. -/
def sendAudioData (sourceLanguage : GoStr) (targetLanguages : List GoStr)
    (requestId : Nat) (data : List Nat) : Except GoStr (List WireFrame) :=
  if normalizeLanguageCode sourceLanguage true = [] then
    .error (gs "invalid source language code")
  else if targetLanguages.any (fun l => normalizeLanguageCode l false == []) then
    .error (gs "invalid target language code")
  else
    .ok [.textFrame (gs "speech.config") requestId,
         .textFrame (gs "audio") requestId,
         .binaryFrame data]

/-- One `sendAudioData` call per audio chunk of a session, as issued by
the continuous recognition worker; `uuid.New()` is modelled by the
counter starting at `firstId` (distinct calls get distinct ids). -/
def sendSession (src : GoStr) (tgts : List GoStr) : Nat → List (List Nat) →
    Except GoStr (List WireFrame)
  | _, [] => .ok []
  | reqId, c :: cs =>
    match sendAudioData src tgts reqId c with
    | .error e => .error e
    | .ok fs =>
      match sendSession src tgts (reqId + 1) cs with
      | .error e => .error e
      | .ok rest => .ok (fs ++ rest)

/-- The frame sequence `sendSession` produces when every language
normalizes: per chunk one `speech.config` envelope, one audio envelope
with the same fresh id, and the binary payload. -/
def expectedSessionTrace (firstId : Nat) : List (List Nat) → List WireFrame
  | [] => []
  | c :: cs =>
    .textFrame (gs "speech.config") firstId ::
    .textFrame (gs "audio") firstId ::
    .binaryFrame c ::
    expectedSessionTrace (firstId + 1) cs

/-- Recognizes the `speech.config` envelope among wire frames. -/
def isConfigFrame : WireFrame → Bool
  | .textFrame p _ => p = gs "speech.config"
  | .binaryFrame _ => false

/-- Request ids of the `Path: audio` envelopes of a frame sequence. -/
def audioIds (frames : List WireFrame) : List Nat :=
  frames.filterMap (fun f =>
    match f with
    | .textFrame p id => if p = gs "audio" then some id else none
    | .binaryFrame _ => none)

/-- Request ids of the `Path: speech.config` envelopes of a frame sequence. -/
def configIds (frames : List WireFrame) : List Nat :=
  frames.filterMap (fun f =>
    match f with
    | .textFrame p id => if p = gs "speech.config" then some id else none
    | .binaryFrame _ => none)

/-! ### Recognizer event traces (`TranslationRecognizer`) -/

/-- An event signalled on one of the recognizer's event streams.  The
recognizing/recognized payload is the (possibly nil) result pointer
passed to `raiseRecognizing` / `raiseRecognized`. -/
inductive RecEvent
  | sessionStarted
  | sessionStopped
  | canceledEvt
  | speechStartDetected
  | speechEndDetected
  | recognizingEvt (result : Option TranslationRecognitionResult)
  | recognizedEvt (result : Option TranslationRecognitionResult)
deriving DecidableEq

/-- The result-receiving goroutine of `continuousRecognitionWorker`
(translation.go lines 522-539): a non-nil decoded result is signalled on
`recognizing` and then on `recognized`; a nil result signals nothing. -/
def fanoutEvents (result : Option TranslationRecognitionResult) : List RecEvent :=
  match result with
  | some r => [.recognizingEvt (some r), .recognizedEvt (some r)]
  | none => []

/-- The environment of one `RecognizeOnce` call: the outcomes of the
subscription-key check, the upstream dial, the single audio-source read
(`readFatalErr` = a non-`io.EOF` read error; `readCount` = bytes read),
the audio send, and the result receive. -/
structure OnceEnv where
  subscriptionKeySet : Bool
  connectOk : Bool
  readFatalErr : Bool
  readCount : Nat
  sendOk : Bool
  recvOk : Bool
  recvValue : Option TranslationRecognitionResult
deriving DecidableEq

/-- Outcome of one `RecognizeOnce` call: an error return, a successful
result return, or a runtime panic. -/
inductive OnceOutcome
  | errorReturn
  | resultReturn (r : TranslationRecognitionResult)
  | panicked
deriving DecidableEq

/-- `TranslationRecognizer.RecognizeOnce` (translation.go lines 339-412)
as a trace of signalled events plus its outcome.  Mirrors the source's
control flow: key check before any event, `sessionStarted`, dial,
`speechStartDetected`, one read, then — only when `n > 0` — send,
receive, `speechEndDetected`, `recognizing`, `recognized`,
`sessionStopped`.  A zero-byte read falls through to the
`no audio data available` error with no further event.  When
`receiveResults` succeeds but yields a nil result (as it does for
`turn.start` frames, non-final phrases and binary frames),
`raiseRecognizing` dereferences `result.Offset` on the nil pointer
(translation.go lines 402 and 722) and the call panics — the package
has no `recover` — so no `recognizing`, `recognized` or
`sessionStopped` event is signalled on that path. -/
def recognizeOnce (e : OnceEnv) : List RecEvent × OnceOutcome :=
  if e.subscriptionKeySet = false then ([], .errorReturn)
  else if e.connectOk = false then ([.sessionStarted, .canceledEvt], .errorReturn)
  else if e.readFatalErr then
    ([.sessionStarted, .speechStartDetected, .canceledEvt], .errorReturn)
  else if e.readCount = 0 then ([.sessionStarted, .speechStartDetected], .errorReturn)
  else if e.sendOk = false then
    ([.sessionStarted, .speechStartDetected, .canceledEvt], .errorReturn)
  else if e.recvOk = false then
    ([.sessionStarted, .speechStartDetected, .canceledEvt], .errorReturn)
  else
    match e.recvValue with
    | none => ([.sessionStarted, .speechStartDetected, .speechEndDetected], .panicked)
    | some r =>
      ([.sessionStarted, .speechStartDetected, .speechEndDetected,
        .recognizingEvt (some r), .recognizedEvt (some r), .sessionStopped],
       .resultReturn r)

/-- One scheduler step of the continuous recognition loop
(translation.go lines 543-624): the `select` branches (stop request,
context done, error from the receive goroutine), a read from the audio
source (success with `n` bytes and the subsequent send outcome, `io.EOF`,
or a fatal error), or a result delivered by the receive goroutine. -/
inductive WStep
  | stopRequested
  | ctxDone
  | recvErr
  | recvGotResult (r : Option TranslationRecognitionResult)
  | readChunk (n : Nat) (sendOk : Bool)
  | readEOF
  | readFatal

/-- The loop body of `continuousRecognitionWorker`: consumes scheduler
steps, emitting events; the boolean reports whether the worker
terminated within the given steps. -/
def workerLoop : List WStep → List RecEvent × Bool
  | [] => ([], false)
  | s :: rest =>
    match s with
    | .stopRequested => ([.sessionStopped], true)
    | .ctxDone => ([.sessionStopped], true)
    | .recvErr => ([.canceledEvt], true)
    | .readEOF => ([.sessionStopped], true)
    | .readFatal => ([.canceledEvt], true)
    | .recvGotResult r =>
      let (tr, fin) := workerLoop rest
      (fanoutEvents r ++ tr, fin)
    | .readChunk n sendOk =>
      if 0 < n ∧ sendOk = false then ([.canceledEvt], true)
      else workerLoop rest

/-- `continuousRecognitionWorker` (translation.go lines 452-625):
`sessionStarted` first; a failed dial or an unsupported audio source
raises `canceled` and returns; otherwise the recognition loop runs.
Interleaving with the receive goroutine is modelled by the step list. -/
def workerRun (connectOk sourceSupported : Bool) (steps : List WStep) :
    List RecEvent × Bool :=
  if connectOk = false then ([.sessionStarted, .canceledEvt], true)
  else if sourceSupported = false then ([.sessionStarted, .canceledEvt], true)
  else
    let (tr, fin) := workerLoop steps
    (.sessionStarted :: tr, fin)

/-- Events that may legitimately sit strictly between `sessionStarted`
and the terminal event of a run. -/
def isMidEvt (e : RecEvent) : Prop :=
  e = .speechStartDetected ∨ e = .speechEndDetected ∨
  (∃ r, e = .recognizingEvt r) ∨ (∃ r, e = .recognizedEvt r)

/-- A trace that starts with `sessionStarted`, ends with `sessionStopped`
or `canceled`, and has only speech/recognition events in between (hence
exactly one `sessionStarted` and exactly one terminal event). -/
def wellFormedRun (tr : List RecEvent) : Prop :=
  ∃ mids last, tr = .sessionStarted :: mids ++ [last] ∧
    (last = .sessionStopped ∨ last = .canceledEvt) ∧
    ∀ e ∈ mids, isMidEvt e

/-- The no-audio-data path of `RecognizeOnce`: dial succeeded, the read
returned zero bytes without a fatal error. -/
def noDataPath (e : OnceEnv) : Prop :=
  e.connectOk = true ∧ e.readFatalErr = false ∧ e.readCount = 0

/-- The nil-result panic path of `RecognizeOnce`: audio was read and
sent and `receiveResults` succeeded, but the decoded result was nil. -/
def nilResultPath (e : OnceEnv) : Prop :=
  e.connectOk = true ∧ e.readFatalErr = false ∧ e.readCount ≠ 0 ∧
  e.sendOk = true ∧ e.recvOk = true ∧ e.recvValue = none

/-! ### Setup validation and the client bridge -/

/-- `StreamingTranslationRequest` (`models/translation_model.go`). -/
structure StreamingTranslationRequest where
  sourceLanguage : GoStr
  targetLanguage : GoStr
  audioFormat : GoStr
deriving DecidableEq

/-- `SupportedLanguages` (translation_model.go lines 9-17). -/
def supportedLanguages (l : GoStr) : Bool :=
  l ∈ [gs "ja", gs "en", gs "fr", gs "es", gs "de", gs "zh", gs "ko"]

/-- `SupportedAudioFormats` (translation_model.go lines 20-25). -/
def supportedAudioFormats (f : GoStr) : Bool :=
  f ∈ [gs "wav", gs "mp3", gs "ogg", gs "flac"]

/-- `StreamingTranslationRequest.Validate` (translation_model.go lines
76-105): non-empty fields, supported languages, then the audio format is
lowercased in place and checked; success returns the request with its
normalized audio format. -/
def validateStreamingRequest (r : StreamingTranslationRequest) :
    Except GoStr StreamingTranslationRequest :=
  if r.sourceLanguage = [] then .error (gs "source language is required")
  else if r.targetLanguage = [] then .error (gs "target language is required")
  else if r.audioFormat = [] then .error (gs "audio format is required")
  else if supportedLanguages r.sourceLanguage = false then
    .error (gs "unsupported source language")
  else if supportedLanguages r.targetLanguage = false then
    .error (gs "unsupported target language")
  else
    let fmt := goToLower r.audioFormat
    if supportedAudioFormats fmt = false then .error (gs "unsupported audio format")
    else .ok { r with audioFormat := fmt }

/-- A stored streaming session record (the recognizer, transport and
clock handles are omitted). -/
structure StreamingSession where
  id : GoStr
  sourceLanguage : GoStr
  targetLanguage : GoStr
  audioFormat : GoStr
deriving DecidableEq

/-- Go map assignment `m[k] = v` on an association list: replaces the
existing binding or appends a new one. -/
def goMapSet {α : Type} : List (GoStr × α) → GoStr → α → List (GoStr × α)
  | [], k, v => [(k, v)]
  | (k', v') :: rest, k, v =>
    if k' = k then (k, v) :: rest else (k', v') :: goMapSet rest k v

/-- Go map read `m[k]`. -/
def goMapGet {α : Type} (m : List (GoStr × α)) (k : GoStr) : Option α :=
  List.lookup k m

/-- Outcome of the WebSocket handler's setup phase: a runtime panic, a
clean abort (connection closed, no session), or a stored session with
the `ready` status sent. -/
inductive WsSetupOutcome
  | panicked
  | aborted
  | ready (session : StreamingSession) (sessions : List (GoStr × StreamingSession))
deriving DecidableEq

/-- The setup phase of `WebSocketHandler` (handler file, lines 255-327):
the debug log slices `speechSubscriptionKey[:5]` unconditionally, which
panics when the configured key is shorter than five bytes — before the
setup frame is even read; otherwise the translation config is created
(failing only on an empty key or region, the former unreachable here),
the push stream and audio config always succeed, one JSON setup frame
is read (`setup = none` models a `ReadJSON` failure), and then — with
no validation of the decoded frame — the recognizer is built, the
session record is stored in `activeSessions` by plain map assignment,
and the `ready` status is sent. -/
def wsHandlerSetup (sessionId : GoStr) (subscriptionKey region : GoStr)
    (setup : Option StreamingTranslationRequest)
    (sessions : List (GoStr × StreamingSession)) : WsSetupOutcome :=
  if subscriptionKey.length < 5 then .panicked
  else if subscriptionKey = [] then .aborted
  else if region = [] then .aborted
  else
    match setup with
    | none => .aborted
    | some msg =>
      let session : StreamingSession :=
        { id := sessionId, sourceLanguage := msg.sourceLanguage,
          targetLanguage := msg.targetLanguage, audioFormat := msg.audioFormat }
      .ready session (goMapSet sessions sessionId session)

/-- `SpeechClient.StartStreamingSession` (speech client, lines 120-144):
generates a session id, creates the speech config (`configOk` models the
SDK call's outcome), and stores the session record by plain map
assignment — with no check that the id is absent. -/
def startStreamingSession (configOk : Bool)
    (sessions : List (GoStr × StreamingSession))
    (newId sourceLanguage targetLanguage audioFormat : GoStr) :
    Except GoStr (GoStr × List (GoStr × StreamingSession)) :=
  if configOk = false then .error (gs "failed to create speech config")
  else
    .ok (newId, goMapSet sessions newId
      { id := newId, sourceLanguage := sourceLanguage,
        targetLanguage := targetLanguage, audioFormat := audioFormat })

/-! ### Helper lemmas on the Go string primitives -/

theorem goSplitChar_ne_nil (sep : Char) (l : GoStr) : goSplitChar sep l ≠ [] := by
  induction l with
  | nil => simp [goSplitChar]
  | cons c cs ih =>
    simp only [goSplitChar]
    rcases h : goSplitChar sep cs with _ | ⟨h', t'⟩
    · simp
    · by_cases hc : c = sep <;> simp [hc]

theorem goSplitChar_headI (sep : Char) (l : GoStr) :
    (goSplitChar sep l).headI = l.takeWhile (fun c => !(c == sep)) := by
  induction l with
  | nil => simp [goSplitChar]
  | cons c cs ih =>
    simp only [goSplitChar]
    rcases h : goSplitChar sep cs with _ | ⟨h', t'⟩
    · exact absurd h (goSplitChar_ne_nil sep cs)
    · by_cases hc : c = sep
      · subst hc
        simp [List.takeWhile]
      · rw [h] at ih
        simp only [List.headI] at ih
        have hb : (c == sep) = false := by simp [hc]
        simp [hc, List.takeWhile, ih, hb]

theorem goToLower_eq_nil (l : GoStr) : goToLower l = [] ↔ l = [] := by
  simp [goToLower]

theorem contains_ne_nil {l : GoStr} {c : Char} (h : l.contains c = true) : l ≠ [] := by
  intro hl
  subst hl
  simp at h

/-! ### Claims C6, C7, C10 — the language normalizer -/

/-- Claim C6 (amended): for hyphenated input, source-language
normalization succeeds exactly when splitting on the hyphen yields
exactly two parts — the parts are NOT required to be non-empty — and on
success returns the lowercased language joined to the uppercased region. -/
theorem normalizeSource_hyphen_needs_two_parts (lang : GoStr)
    (h : (goTrimSpace lang).contains '-' = true) :
    (normalizeLanguageCode lang true ≠ [] ↔
      (goSplitChar '-' (goTrimSpace lang)).length = 2) ∧
    (∀ p0 p1, goSplitChar '-' (goTrimSpace lang) = [p0, p1] →
      normalizeLanguageCode lang true = goToLower p0 ++ '-' :: goToUpper p1) := by
  have ht : goTrimSpace lang ≠ [] := contains_ne_nil h
  have hdef : normalizeLanguageCode lang true =
      (match goSplitChar '-' (goTrimSpace lang) with
       | [p0, p1] => goToLower p0 ++ '-' :: goToUpper p1
       | _ => []) := by
    unfold normalizeLanguageCode
    have hmem : '-' ∈ goTrimSpace lang := by simpa using h
    simp [ht, hmem]
  rcases hsp : goSplitChar '-' (goTrimSpace lang) with _ | ⟨p0, _ | ⟨p1, _ | ⟨p2, rest⟩⟩⟩
  · exact absurd hsp (goSplitChar_ne_nil _ _)
  · refine ⟨?_, ?_⟩
    · rw [hdef, hsp]
      simp
    · intro q0 q1 hq
      simp at hq
  · refine ⟨?_, ?_⟩
    · rw [hdef, hsp]
      simp
    · intro q0 q1 hq
      obtain ⟨rfl, rfl⟩ : p0 = q0 ∧ p1 = q1 := by simpa using hq
      rw [hdef, hsp]
  · refine ⟨?_, ?_⟩
    · rw [hdef, hsp]
      simp
    · intro q0 q1 hq
      simp at hq

/-- Witness for `normalizeSource_hyphen_needs_two_parts` at `"ja-JP"`. -/
theorem normalizeSource_hyphen_needs_two_parts_witness :
    (goTrimSpace (gs "ja-JP")).contains '-' = true ∧
    (normalizeLanguageCode (gs "ja-JP") true ≠ [] ↔
      (goSplitChar '-' (goTrimSpace (gs "ja-JP"))).length = 2) :=
  ⟨by decide, (normalizeSource_hyphen_needs_two_parts (gs "ja-JP") (by decide)).1⟩

/-- Claim C6 counterexample: `"ja-"` splits on the hyphen into the two
parts `"ja"` and `""` — the second part empty — yet source normalization
succeeds, returning `"ja-"` instead of failing as the claim requires. -/
theorem normalizeSource_accepts_empty_region :
    goSplitChar '-' (goTrimSpace (gs "ja-")) = [gs "ja", []] ∧
    normalizeLanguageCode (gs "ja-") true = gs "ja-" ∧ gs "ja-" ≠ [] := by
  decide

/-- Claim C10 (amended): target-language normalization of input that is
non-empty after trimming returns the empty failure result exactly when
the trimmed tag begins with a hyphen (so it is NOT total on non-empty
trimmed input). -/
theorem normalizeTarget_empty_iff_leading_hyphen (lang : GoStr)
    (h : goTrimSpace lang ≠ []) :
    (normalizeLanguageCode lang false = [] ↔ (goTrimSpace lang).head? = some '-') := by
  have hdef : normalizeLanguageCode lang false =
      (if (goTrimSpace lang).contains '-' = true then
        goToLower ((goSplitChar '-' (goTrimSpace lang)).headI)
       else goToLower (goTrimSpace lang)) := by
    unfold normalizeLanguageCode
    simp [h]
  rcases hcs : goTrimSpace lang with _ | ⟨c, cs⟩
  · exact absurd hcs h
  by_cases hcon : (goTrimSpace lang).contains '-' = true
  · rw [hdef, if_pos hcon, goSplitChar_headI, hcs]
    by_cases hc : c = '-'
    · subst hc
      simp [List.takeWhile, goToLower]
    · have hb : (c == '-') = false := by simp [hc]
      simp [List.takeWhile, hb, goToLower, hc]
  · have hc : c ≠ '-' := by
      intro hc
      subst hc
      rw [hcs] at hcon
      simp at hcon
    rw [hdef, if_neg hcon, hcs]
    simp [goToLower, hc]

/-- Witness for `normalizeTarget_empty_iff_leading_hyphen` at `"en"`. -/
theorem normalizeTarget_empty_iff_leading_hyphen_witness :
    goTrimSpace (gs "en") ≠ [] ∧
    (normalizeLanguageCode (gs "en") false = [] ↔
      (goTrimSpace (gs "en")).head? = some '-') :=
  ⟨by decide, normalizeTarget_empty_iff_leading_hyphen (gs "en") (by decide)⟩

/-- Claim C10 counterexample: `"-en"` is non-empty after trimming, yet
target normalization returns the empty failure result (the lowercased
part before the first hyphen is empty). -/
theorem normalizeTarget_fails_on_leading_hyphen :
    goTrimSpace (gs "-en") ≠ [] ∧ normalizeLanguageCode (gs "-en") false = [] := by
  decide

/-- The canonical region of a valid setup language tag: the region part
of its normalized source form. -/
def canonRegion (x : GoStr) : GoStr :=
  (goSplitChar '-' (normalizeLanguageCode x true)).getD 1 []

/-- The language tags accepted by streaming-setup validation
(`SupportedLanguages` in translation_model.go). -/
def validSetupLanguageTags : List GoStr :=
  [gs "ja", gs "en", gs "fr", gs "es", gs "de", gs "zh", gs "ko"]

/-- Claim C7: for every valid setup language tag, composing target
normalization, appending the canonical region, and source normalization
round-trips to the normalized source form of the tag. -/
theorem normalize_round_trip (x : GoStr) (hx : x ∈ validSetupLanguageTags) :
    normalizeLanguageCode (normalizeLanguageCode x false ++ '-' :: canonRegion x) true =
      normalizeLanguageCode x true := by
  simp only [validSetupLanguageTags, List.mem_cons, List.not_mem_nil, or_false] at hx
  rcases hx with rfl | rfl | rfl | rfl | rfl | rfl | rfl <;> decide

/-- Witness for `normalize_round_trip` at `"ja"`. -/
theorem normalize_round_trip_witness :
    gs "ja" ∈ validSetupLanguageTags ∧
    normalizeLanguageCode
        (normalizeLanguageCode (gs "ja") false ++ '-' :: canonRegion (gs "ja")) true =
      normalizeLanguageCode (gs "ja") true :=
  ⟨by decide, normalize_round_trip (gs "ja") (by decide)⟩

/-! ### Claim C1 — the audio ingress buffer -/

theorem pushWriteSeq_from_buffer (chunks : List (List Nat)) :
    ∀ buf : List (List Nat), buf.length + chunks.length ≤ 100 →
      pushWriteSeq ⟨buf, false⟩ chunks = some ⟨buf ++ chunks, false⟩ := by
  induction chunks with
  | nil => intro buf _; simp [pushWriteSeq]
  | cons c cs ih =>
    intro buf hlen
    have hlt : buf.length < 100 := by
      simp only [List.length_cons] at hlen
      omega
    have hstep : pushWrite ⟨buf, false⟩ c = (⟨buf ++ [c], false⟩, .ok c.length) := by
      simp [pushWrite, hlt]
    have hrec : pushWriteSeq ⟨buf ++ [c], false⟩ cs = some ⟨(buf ++ [c]) ++ cs, false⟩ := by
      apply ih
      simp only [List.length_append, List.length_singleton]
      simp only [List.length_cons] at hlen
      omega
    calc pushWriteSeq ⟨buf, false⟩ (c :: cs)
        = pushWriteSeq ⟨buf ++ [c], false⟩ cs := by simp [pushWriteSeq, hstep]
      _ = some ⟨buf ++ c :: cs, false⟩ := by rw [hrec]; simp

theorem pushReadSeq_drains_in_order (chunks : List (List Nat)) (dstLen : Nat)
    (hsz : ∀ c ∈ chunks, c.length ≤ dstLen) :
    pushReadSeq ⟨chunks, false⟩ dstLen chunks.length =
      chunks.map (fun c => ReadOutcome.chunk c.length c) := by
  induction chunks with
  | nil => simp [pushReadSeq]
  | cons c cs ih =>
    have hc : c.length ≤ dstLen := hsz c (by simp)
    have hstep : pushRead ⟨c :: cs, false⟩ dstLen =
        (⟨cs, false⟩, .chunk c.length c) := by
      simp [pushRead, min_eq_right hc, List.take_of_length_le hc]
    simp only [List.length_cons, pushReadSeq, hstep, List.map_cons]
    exact congrArg _ (ih (fun d hd => hsz d (by simp [hd])))

/-- Claim C1 (amended): while the stream is open, writes enqueue chunks
and reads dequeue them unchanged in FIFO order; but as soon as `Close`
is called, `Read` returns end-of-stream immediately — even when chunks
are still queued, which are therefore never delivered (the queue is NOT
drained before end-of-stream). -/
theorem pushStream_fifo_open_eof_on_close (chunks : List (List Nat)) (dstLen : Nat)
    (s : PushAudioInputStream)
    (hlen : chunks.length ≤ 100) (hsz : ∀ c ∈ chunks, c.length ≤ dstLen) :
    pushWriteSeq newPushStream chunks = some ⟨chunks, false⟩ ∧
    pushReadSeq ⟨chunks, false⟩ dstLen chunks.length =
      chunks.map (fun c => ReadOutcome.chunk c.length c) ∧
    pushRead (pushClose s) dstLen = (pushClose s, .eof) := by
  refine ⟨?_, pushReadSeq_drains_in_order chunks dstLen hsz, ?_⟩
  · have h := pushWriteSeq_from_buffer chunks [] (by simpa using hlen)
    simpa [newPushStream] using h
  · simp [pushRead, pushClose]

/-- Witness for `pushStream_fifo_open_eof_on_close`: two chunks written
and read back in order; a closed stream with a queued chunk reads EOF. -/
theorem pushStream_fifo_open_eof_on_close_witness :
    ([[1, 2], [3]] : List (List Nat)).length ≤ 100 ∧
    (∀ c ∈ ([[1, 2], [3]] : List (List Nat)), c.length ≤ 4) ∧
    (pushWriteSeq newPushStream [[1, 2], [3]] = some ⟨[[1, 2], [3]], false⟩ ∧
     pushReadSeq ⟨[[1, 2], [3]], false⟩ 4 2 =
       [ReadOutcome.chunk 2 [1, 2], ReadOutcome.chunk 1 [3]] ∧
     pushRead (pushClose ⟨[[9]], false⟩) 4 = (pushClose ⟨[[9]], false⟩, .eof)) :=
  ⟨by decide, by decide,
   pushStream_fifo_open_eof_on_close [[1, 2], [3]] 4 ⟨[[9]], false⟩ (by decide) (by decide)⟩

/-- Claim C1 counterexample: one successful `Write` of the chunk `[7]`
followed by `Close`; the very first `Read` then returns end-of-stream
while the chunk is still queued, so the reader never receives it —
refuting both the drain-before-EOF and the delivery guarantee. -/
theorem pushStream_close_discards_queued :
    pushWrite newPushStream [7] = (⟨[[7]], false⟩, .ok 1) ∧
    pushClose ⟨[[7]], false⟩ = ⟨[[7]], true⟩ ∧
    pushRead ⟨[[7]], true⟩ 8 = (⟨[[7]], true⟩, .eof) := by
  decide

/-! ### Claim C2 — the outbound encoder -/

theorem sendAudioData_ok (src : GoStr) (tgts : List GoStr) (reqId : Nat) (data : List Nat)
    (hsrc : normalizeLanguageCode src true ≠ [])
    (htgt : ∀ l ∈ tgts, normalizeLanguageCode l false ≠ []) :
    sendAudioData src tgts reqId data =
      .ok [.textFrame (gs "speech.config") reqId,
           .textFrame (gs "audio") reqId,
           .binaryFrame data] := by
  have hany : (tgts.any (fun l => normalizeLanguageCode l false == [])) = false := by
    rw [List.any_eq_false]
    intro l hl
    simpa using htgt l hl
  unfold sendAudioData
  rw [if_neg hsrc, if_neg (fun hcond => by
    obtain ⟨x, hx, hxe⟩ := by simpa using hcond
    exact htgt x hx hxe)]

theorem sendSession_expected (src : GoStr) (tgts : List GoStr)
    (hsrc : normalizeLanguageCode src true ≠ [])
    (htgt : ∀ l ∈ tgts, normalizeLanguageCode l false ≠ []) :
    ∀ (chunks : List (List Nat)) (firstId : Nat),
      sendSession src tgts firstId chunks = .ok (expectedSessionTrace firstId chunks) := by
  intro chunks
  induction chunks with
  | nil => intro firstId; simp [sendSession, expectedSessionTrace]
  | cons c cs ih =>
    intro firstId
    simp [sendSession, sendAudioData_ok src tgts firstId c hsrc htgt, ih (firstId + 1),
      expectedSessionTrace]

theorem expected_config_count (chunks : List (List Nat)) :
    ∀ firstId, (expectedSessionTrace firstId chunks).countP isConfigFrame = chunks.length := by
  induction chunks with
  | nil => intro firstId; simp [expectedSessionTrace]
  | cons c cs ih =>
    intro firstId
    have h1 : ¬ (gs "audio" = gs "speech.config") := by decide
    simp [expectedSessionTrace, List.countP_cons, isConfigFrame, ih (firstId + 1), h1]

theorem range_map_add_succ (i n : Nat) :
    (List.range (n + 1)).map (fun j => i + j) =
      i :: (List.range n).map (fun j => (i + 1) + j) := by
  rw [List.range_succ_eq_map, List.map_cons, List.map_map]
  have h2 : ((fun j => i + j) ∘ Nat.succ) = fun j => (i + 1) + j := by
    funext j
    simp only [Function.comp_apply]
    omega
  rw [h2]
  simp

theorem audioIds_expected (chunks : List (List Nat)) :
    ∀ firstId, audioIds (expectedSessionTrace firstId chunks) =
      (List.range chunks.length).map (fun j => firstId + j) := by
  induction chunks with
  | nil => intro firstId; rfl
  | cons c cs ih =>
    intro firstId
    have h1 : ¬ (gs "speech.config" = gs "audio") := by decide
    have hstep : audioIds (expectedSessionTrace firstId (c :: cs)) =
        firstId :: audioIds (expectedSessionTrace (firstId + 1) cs) := by
      simp [expectedSessionTrace, audioIds, List.filterMap_cons, h1]
    rw [hstep, ih (firstId + 1), List.length_cons, range_map_add_succ]

theorem configIds_expected (chunks : List (List Nat)) :
    ∀ firstId, configIds (expectedSessionTrace firstId chunks) =
      (List.range chunks.length).map (fun j => firstId + j) := by
  induction chunks with
  | nil => intro firstId; rfl
  | cons c cs ih =>
    intro firstId
    have h1 : ¬ (gs "audio" = gs "speech.config") := by decide
    have hstep : configIds (expectedSessionTrace firstId (c :: cs)) =
        firstId :: configIds (expectedSessionTrace (firstId + 1) cs) := by
      simp [expectedSessionTrace, configIds, List.filterMap_cons, h1]
    rw [hstep, ih (firstId + 1), List.length_cons, range_map_add_succ]

/-- Claim C2 (amended): every `sendAudioData` call — i.e. every audio
chunk, not every session — emits its own `speech.config` envelope
followed by an audio envelope carrying the same freshly generated
`X-RequestId`; distinct chunks use pairwise distinct request ids, so a
session of `k` chunks carries `k` configuration envelopes. -/
theorem sendAudioData_config_per_chunk (src : GoStr) (tgts : List GoStr)
    (firstId : Nat) (chunks : List (List Nat))
    (hsrc : normalizeLanguageCode src true ≠ [])
    (htgt : ∀ l ∈ tgts, normalizeLanguageCode l false ≠ []) :
    sendSession src tgts firstId chunks = .ok (expectedSessionTrace firstId chunks) ∧
    (expectedSessionTrace firstId chunks).countP isConfigFrame = chunks.length ∧
    configIds (expectedSessionTrace firstId chunks) =
      audioIds (expectedSessionTrace firstId chunks) ∧
    (audioIds (expectedSessionTrace firstId chunks)).Nodup := by
  refine ⟨sendSession_expected src tgts hsrc htgt chunks firstId,
    expected_config_count chunks firstId, ?_, ?_⟩
  · rw [configIds_expected chunks firstId, audioIds_expected chunks firstId]
  · rw [audioIds_expected chunks firstId]
    exact (List.nodup_range _).map (add_right_injective firstId)

/-- Witness for `sendAudioData_config_per_chunk` at a two-chunk
`ja → en` session. -/
theorem sendAudioData_config_per_chunk_witness :
    normalizeLanguageCode (gs "ja") true ≠ [] ∧
    (∀ l ∈ [gs "en"], normalizeLanguageCode l false ≠ []) ∧
    (sendSession (gs "ja") [gs "en"] 0 [[1], [2]] =
      .ok (expectedSessionTrace 0 [[1], [2]]) ∧
     (expectedSessionTrace 0 [[1], [2]]).countP isConfigFrame = 2 ∧
     configIds (expectedSessionTrace 0 [[1], [2]]) = audioIds (expectedSessionTrace 0 [[1], [2]]) ∧
     (audioIds (expectedSessionTrace 0 [[1], [2]])).Nodup) :=
  ⟨by decide, by decide,
   sendAudioData_config_per_chunk (gs "ja") [gs "en"] 0 [[1], [2]] (by decide) (by decide)⟩

/-- Claim C2 counterexample: a session sending two chunks emits TWO
`speech.config` envelopes (not one), and the two audio envelopes carry
DIFFERENT request ids (`0` and `1` under the fresh-id supply), refuting
both the once-per-session and the id-reuse guarantee. -/
theorem sendAudioData_two_chunks_two_configs :
    sendSession (gs "ja") [gs "en"] 0 [[1], [2]] =
      .ok [.textFrame (gs "speech.config") 0, .textFrame (gs "audio") 0, .binaryFrame [1],
           .textFrame (gs "speech.config") 1, .textFrame (gs "audio") 1, .binaryFrame [2]] ∧
    (expectedSessionTrace 0 [[1], [2]]).countP isConfigFrame = 2 ∧
    audioIds (expectedSessionTrace 0 [[1], [2]]) = [0, 1] := by
  refine ⟨rfl, by decide, by decide⟩

/-! ### Claims C3, C5 — inbound decoding and event fanout -/

theorem jlookup_cons_of_ne (k k' : GoStr) (v : JValue) (fs : List (GoStr × JValue))
    (h : (k == k') = false) : jlookup ((k', v) :: fs) k = jlookup fs k := by
  simp [jlookup, List.lookup, h]

/-- Claim C3 (amended): an inbound text frame whose `Path` is
`speech.hypothesis` decodes to NO result at all (the codec has no
hypothesis branch, and `ResultReason` has no hypothesis member), so
nothing is signalled for it; conversely every non-nil decoded result is
signalled on BOTH `recognizing` and `recognized`, in that order. -/
theorem hypothesis_frames_ignored_fanout_both (hdr : GoStr)
    (body : List (GoStr × JValue))
    (h : extractPath hdr = gs "speech.hypothesis") :
    receiveResults (.textMsg hdr (some body)) = .ok none ∧
    (∀ r, fanoutEvents (some r) = [.recognizingEvt (some r), .recognizedEvt (some r)]) ∧
    fanoutEvents none = [] := by
  refine ⟨?_, fun r => rfl, rfl⟩
  unfold receiveResults
  dsimp only
  rw [h, if_neg (by decide), if_neg (by decide)]

/-- Witness for `hypothesis_frames_ignored_fanout_both` at a concrete
hypothesis frame. -/
theorem hypothesis_frames_ignored_fanout_both_witness :
    extractPath (gs "Path: speech.hypothesis") = gs "speech.hypothesis" ∧
    receiveResults (.textMsg (gs "Path: speech.hypothesis")
        (some [(gs "text", .jstr (gs "hola"))])) = .ok none :=
  ⟨by decide,
   (hypothesis_frames_ignored_fanout_both (gs "Path: speech.hypothesis")
     [(gs "text", .jstr (gs "hola"))] (by decide)).1⟩

/-- Claim C3 counterexample: a well-formed `speech.hypothesis` frame
decodes to no result — no interim `RecognitionResult` is produced and
nothing is signalled on `recognizing`; moreover a decoded final result
is signalled on `recognizing` as well as on `recognized`. -/
theorem hypothesis_frame_yields_no_result :
    receiveResults (.textMsg (gs "Path: speech.hypothesis")
        (some [(gs "text", .jstr (gs "hola")), (gs "type", .jstr (gs "interim"))]))
      = .ok none ∧
    fanoutEvents (some ⟨gs "hola", .translatedSpeech, []⟩)
      = [.recognizingEvt (some ⟨gs "hola", .translatedSpeech, []⟩),
         .recognizedEvt (some ⟨gs "hola", .translatedSpeech, []⟩)] :=
  ⟨rfl, rfl⟩

/-- Claim C5 (amended): a `speech.phrase` frame decodes to a final
result exactly when its `type` field is the JSON string `"final"`; the
`RecognitionStatus` field is never consulted (prepending any
`RecognitionStatus` value leaves the decode unchanged); on success the
result is `buildPhraseResult` — text from `NBest[0].Display`,
translations from the string-valued `Translations` entries. -/
theorem speech_phrase_final_iff_type_final (hdr : GoStr)
    (response : List (GoStr × JValue))
    (h : extractPath hdr = gs "speech.phrase") :
    ((∃ r, receiveResults (.textMsg hdr (some response)) = .ok (some r)) ↔
      (match jlookup response (gs "type") with
       | some (.jstr s) => s == gs "final"
       | _ => false) = true) ∧
    (∀ v, receiveResults (.textMsg hdr (some ((gs "RecognitionStatus", v) :: response)))
        = receiveResults (.textMsg hdr (some response))) ∧
    (∀ r, receiveResults (.textMsg hdr (some response)) = .ok (some r) →
      r = buildPhraseResult response) := by
  have hdec : ∀ resp : List (GoStr × JValue),
      receiveResults (.textMsg hdr (some resp)) =
        (if (match jlookup resp (gs "type") with
             | some (.jstr s) => s == gs "final"
             | _ => false) = true
         then .ok (some (buildPhraseResult resp)) else .ok none) := by
    intro resp
    unfold receiveResults
    dsimp only
    rw [h, if_neg (by decide), if_pos (by decide)]
  refine ⟨?_, ?_, ?_⟩
  · rw [hdec response]
    rcases hm : (match jlookup response (gs "type") with
                 | some (.jstr s) => s == gs "final"
                 | _ => false) with _ | _
    · simp [hm]
    · simp [hm]
  · intro v
    rw [hdec, hdec]
    have ht : jlookup ((gs "RecognitionStatus", v) :: response) (gs "type")
        = jlookup response (gs "type") := jlookup_cons_of_ne _ _ _ _ (by decide)
    have hn : jlookup ((gs "RecognitionStatus", v) :: response) (gs "NBest")
        = jlookup response (gs "NBest") := jlookup_cons_of_ne _ _ _ _ (by decide)
    have htr : jlookup ((gs "RecognitionStatus", v) :: response) (gs "Translations")
        = jlookup response (gs "Translations") := jlookup_cons_of_ne _ _ _ _ (by decide)
    rw [ht]
    rcases hm : (match jlookup response (gs "type") with
                 | some (.jstr s) => s == gs "final"
                 | _ => false) with _ | _
    · simp [hm]
    · simp only [hm, if_pos]
      unfold buildPhraseResult
      rw [hn, htr]
  · intro r hr
    rw [hdec response] at hr
    rcases hm : (match jlookup response (gs "type") with
                 | some (.jstr s) => s == gs "final"
                 | _ => false) with _ | _
    · rw [hm] at hr
      simp at hr
    · rw [hm] at hr
      simp at hr
      exact hr.symm

/-- Witness for `speech_phrase_final_iff_type_final` at a concrete
final frame. -/
theorem speech_phrase_final_iff_type_final_witness :
    extractPath (gs "Path: speech.phrase") = gs "speech.phrase" ∧
    (∃ r, receiveResults (.textMsg (gs "Path: speech.phrase")
        (some [(gs "type", .jstr (gs "final"))])) = .ok (some r)) :=
  ⟨by decide,
   (speech_phrase_final_iff_type_final (gs "Path: speech.phrase")
       [(gs "type", .jstr (gs "final"))] (by decide)).1.mpr (by decide)⟩

/-- Claim C5 counterexample: a `speech.phrase` frame whose
`RecognitionStatus` is `"Error"` but whose `type` is `"final"` still
decodes to a final result — the codec never checks `RecognitionStatus`,
refuting the claimed `RecognitionStatus = "Success"` conjunct. -/
theorem speech_phrase_final_despite_error_status :
    receiveResults (.textMsg (gs "Path: speech.phrase")
        (some [(gs "RecognitionStatus", .jstr (gs "Error")),
               (gs "type", .jstr (gs "final")),
               (gs "NBest", .jarr [.jobj [(gs "Display", .jstr (gs "hello"))]]),
               (gs "Translations", .jobj [(gs "ja", .jstr (gs "konnichiwa"))])]))
      = .ok (some ⟨gs "hello", .translatedSpeech, [(gs "ja", gs "konnichiwa")]⟩) := by
  rfl

/-! ### Claim C4 — session event ordering -/

theorem fanout_all_mid (r : Option TranslationRecognitionResult) :
    ∀ e ∈ fanoutEvents r, isMidEvt e := by
  rcases r with _ | r <;> simp [fanoutEvents, isMidEvt]

theorem workerLoop_spec (steps : List WStep) :
    ((workerLoop steps).2 = true →
      ∃ mids last, (workerLoop steps).1 = mids ++ [last] ∧
        (last = .sessionStopped ∨ last = .canceledEvt) ∧ ∀ e ∈ mids, isMidEvt e) ∧
    ((workerLoop steps).2 = false → ∀ e ∈ (workerLoop steps).1, isMidEvt e) := by
  induction steps with
  | nil => simp [workerLoop]
  | cons s rest ih =>
    cases s with
    | stopRequested =>
      refine ⟨fun _ => ⟨[], .sessionStopped, rfl, Or.inl rfl, by simp⟩, fun hf => ?_⟩
      simp [workerLoop] at hf
    | ctxDone =>
      refine ⟨fun _ => ⟨[], .sessionStopped, rfl, Or.inl rfl, by simp⟩, fun hf => ?_⟩
      simp [workerLoop] at hf
    | recvErr =>
      refine ⟨fun _ => ⟨[], .canceledEvt, rfl, Or.inr rfl, by simp⟩, fun hf => ?_⟩
      simp [workerLoop] at hf
    | readEOF =>
      refine ⟨fun _ => ⟨[], .sessionStopped, rfl, Or.inl rfl, by simp⟩, fun hf => ?_⟩
      simp [workerLoop] at hf
    | readFatal =>
      refine ⟨fun _ => ⟨[], .canceledEvt, rfl, Or.inr rfl, by simp⟩, fun hf => ?_⟩
      simp [workerLoop] at hf
    | recvGotResult r =>
      have heq : workerLoop (WStep.recvGotResult r :: rest) =
          (fanoutEvents r ++ (workerLoop rest).1, (workerLoop rest).2) := by
        simp [workerLoop]
      constructor
      · intro hfin
        rw [heq] at hfin ⊢
        obtain ⟨mids, last, h1, h2, h3⟩ := ih.1 hfin
        refine ⟨fanoutEvents r ++ mids, last, ?_, h2, ?_⟩
        · simp [h1]
        · intro e he
          rcases List.mem_append.mp he with he | he
          · exact fanout_all_mid r e he
          · exact h3 e he
      · intro hfin
        rw [heq] at hfin ⊢
        intro e he
        rcases List.mem_append.mp he with he | he
        · exact fanout_all_mid r e he
        · exact ih.2 hfin e he
    | readChunk n sendOk =>
      by_cases hc : 0 < n ∧ sendOk = false
      · have heq : workerLoop (WStep.readChunk n sendOk :: rest) = ([.canceledEvt], true) := by
          simp [workerLoop, hc]
        rw [heq]
        exact ⟨fun _ => ⟨[], .canceledEvt, rfl, Or.inr rfl, by simp⟩, by simp⟩
      · have heq : workerLoop (WStep.readChunk n sendOk :: rest) = workerLoop rest := by
          simp [workerLoop, hc]
        rw [heq]
        exact ih

/-- Claim C4 (amended): in the sequential model, every terminating
continuous-recognition worker run signals `sessionStarted` first and
exactly one terminal `sessionStopped`-or-`canceled` event last; a
`RecognizeOnce` run (with the subscription key set) does the same
EXCEPT on two paths: the no-audio-data path, where the run ends after
`sessionStarted` and `speechStartDetected` with no terminal event, and
the nil-result path, where `raiseRecognizing` dereferences the nil
result and the call panics after `speechEndDetected`, again with no
terminal event. -/
theorem recognizer_trace_shape (connectOk sourceSupported : Bool)
    (steps : List WStep) (e : OnceEnv) :
    ((workerRun connectOk sourceSupported steps).2 = true →
      wellFormedRun (workerRun connectOk sourceSupported steps).1) ∧
    ((workerRun connectOk sourceSupported steps).2 = false →
      ∃ mids, (workerRun connectOk sourceSupported steps).1 = .sessionStarted :: mids ∧
        ∀ ev ∈ mids, isMidEvt ev) ∧
    (e.subscriptionKeySet = true → ¬ noDataPath e → ¬ nilResultPath e →
      wellFormedRun (recognizeOnce e).1) ∧
    (e.subscriptionKeySet = true → noDataPath e →
      (recognizeOnce e).1 = [.sessionStarted, .speechStartDetected] ∧
      (recognizeOnce e).2 = .errorReturn) ∧
    (e.subscriptionKeySet = true → nilResultPath e →
      (recognizeOnce e).1 = [.sessionStarted, .speechStartDetected, .speechEndDetected] ∧
      (recognizeOnce e).2 = .panicked) := by
  refine ⟨?_, ?_, ?_, ?_, ?_⟩
  · intro hfin
    cases connectOk with
    | false => exact ⟨[], .canceledEvt, rfl, Or.inr rfl, by simp⟩
    | true =>
      cases sourceSupported with
      | false => exact ⟨[], .canceledEvt, rfl, Or.inr rfl, by simp⟩
      | true =>
        have heq : workerRun true true steps =
            (.sessionStarted :: (workerLoop steps).1, (workerLoop steps).2) := by
          simp [workerRun]
        rw [heq] at hfin ⊢
        obtain ⟨mids, last, h1, h2, h3⟩ := (workerLoop_spec steps).1 hfin
        exact ⟨mids, last, by simp [h1], h2, h3⟩
  · intro hfin
    cases connectOk with
    | false => simp [workerRun] at hfin
    | true =>
      cases sourceSupported with
      | false => simp [workerRun] at hfin
      | true =>
        have heq : workerRun true true steps =
            (.sessionStarted :: (workerLoop steps).1, (workerLoop steps).2) := by
          simp [workerRun]
        rw [heq] at hfin ⊢
        exact ⟨(workerLoop steps).1, rfl, (workerLoop_spec steps).2 hfin⟩
  · intro hk hnd hnr
    obtain ⟨key, conn, fatal, n, send, recv, rv⟩ := e
    simp only at hk
    subst hk
    cases conn with
    | false =>
      exact ⟨[], .canceledEvt, rfl, Or.inr rfl, by simp⟩
    | true =>
      cases fatal with
      | true =>
        exact ⟨[.speechStartDetected], .canceledEvt, rfl, Or.inr rfl, by simp [isMidEvt]⟩
      | false =>
        cases n with
        | zero => exact absurd ⟨rfl, rfl, rfl⟩ hnd
        | succ m =>
          cases send with
          | false =>
            exact ⟨[.speechStartDetected], .canceledEvt, rfl, Or.inr rfl, by simp [isMidEvt]⟩
          | true =>
            cases recv with
            | false =>
              exact ⟨[.speechStartDetected], .canceledEvt, rfl, Or.inr rfl, by simp [isMidEvt]⟩
            | true =>
              cases rv with
              | none =>
                exact absurd ⟨rfl, rfl, Nat.succ_ne_zero m, rfl, rfl, rfl⟩ hnr
              | some r =>
                refine ⟨[.speechStartDetected, .speechEndDetected,
                  .recognizingEvt (some r), .recognizedEvt (some r)],
                  .sessionStopped, rfl, Or.inl rfl, ?_⟩
                intro ev hev
                simp only [List.mem_cons, List.not_mem_nil, or_false] at hev
                rcases hev with rfl | rfl | rfl | rfl <;> simp [isMidEvt]
  · intro hk hnd
    obtain ⟨key, conn, fatal, n, send, recv, rv⟩ := e
    obtain ⟨h1, h2, h3⟩ := hnd
    simp only at hk h1 h2 h3
    subst hk
    subst h1
    subst h2
    subst h3
    exact ⟨rfl, rfl⟩
  · intro hk hnr
    obtain ⟨key, conn, fatal, n, send, recv, rv⟩ := e
    obtain ⟨h1, h2, h3, h4, h5, h6⟩ := hnr
    simp only at hk h1 h2 h3 h4 h5 h6
    subst hk
    subst h1
    subst h2
    subst h4
    subst h5
    subst h6
    cases n with
    | zero => exact absurd rfl h3
    | succ m => exact ⟨rfl, rfl⟩

/-- Witness for `recognizer_trace_shape`: a worker run terminated by a
stop request, and a `RecognizeOnce` run that read 4 bytes and received
a non-nil result. -/
theorem recognizer_trace_shape_witness :
    (workerRun true true [WStep.stopRequested]).2 = true ∧
    (OnceEnv.mk true true false 4 true true
      (some ⟨gs "hi", .translatedSpeech, []⟩)).subscriptionKeySet = true ∧
    ¬ noDataPath (OnceEnv.mk true true false 4 true true
      (some ⟨gs "hi", .translatedSpeech, []⟩)) ∧
    ¬ nilResultPath (OnceEnv.mk true true false 4 true true
      (some ⟨gs "hi", .translatedSpeech, []⟩)) ∧
    wellFormedRun (workerRun true true [WStep.stopRequested]).1 ∧
    wellFormedRun (recognizeOnce (OnceEnv.mk true true false 4 true true
      (some ⟨gs "hi", .translatedSpeech, []⟩))).1 :=
  ⟨rfl, rfl,
   by simp [noDataPath],
   by simp [nilResultPath],
   (recognizer_trace_shape true true [WStep.stopRequested]
     (OnceEnv.mk true true false 4 true true
       (some ⟨gs "hi", .translatedSpeech, []⟩))).1 rfl,
   (recognizer_trace_shape true true [WStep.stopRequested]
     (OnceEnv.mk true true false 4 true true
       (some ⟨gs "hi", .translatedSpeech, []⟩))).2.2.1 rfl
     (by simp [noDataPath]) (by simp [nilResultPath])⟩

/-- Claim C4 counterexample: a `RecognizeOnce` run whose audio read
returns zero bytes signals `sessionStarted` and `speechStartDetected` and
then returns with NO terminal `sessionStopped` or `canceled` event — the
last event signalled is `speechStartDetected`. -/
theorem recognizeOnce_no_audio_no_terminal_event :
    (recognizeOnce (OnceEnv.mk true true false 0 true true none)).1
      = [.sessionStarted, .speechStartDetected] ∧
    ¬ wellFormedRun [.sessionStarted, .speechStartDetected] := by
  refine ⟨rfl, ?_⟩
  rintro ⟨mids, last, heq, hterm, -⟩
  have htail : [RecEvent.speechStartDetected] = mids ++ [last] := by
    simpa using heq
  rcases mids with _ | ⟨m, ms⟩
  · simp only [List.nil_append, List.cons.injEq] at htail
    rcases hterm with h | h <;> rw [h] at htail <;> simp at htail
  · simp only [List.cons_append, List.cons.injEq] at htail
    have := htail.2
    exact absurd this.symm (by simp)

/-! ### Claims C8, C9 — the client bridge and the session registry -/

/-- Claim C8 (amended): the WebSocket bridge does NOT validate the
decoded setup frame: whenever the configured subscription key is at
least five bytes (shorter keys crash the handler in the debug-log key
slice before the setup frame is read) and the region is non-empty,
every decoded setup frame — including ones
`StreamingTranslationRequest.Validate` rejects — produces a ready
session whose fields are copied verbatim into the session record. -/
theorem wsHandler_skips_validation (sessionId key region : GoStr)
    (msg : StreamingTranslationRequest)
    (sessions : List (GoStr × StreamingSession))
    (hkey : 5 ≤ key.length) (hreg : region ≠ []) :
    wsHandlerSetup sessionId key region (some msg) sessions =
      .ready ⟨sessionId, msg.sourceLanguage, msg.targetLanguage, msg.audioFormat⟩
        (goMapSet sessions sessionId
          ⟨sessionId, msg.sourceLanguage, msg.targetLanguage, msg.audioFormat⟩) ∧
    (∀ err, validateStreamingRequest msg = .error err →
      wsHandlerSetup sessionId key region (some msg) sessions =
        .ready ⟨sessionId, msg.sourceLanguage, msg.targetLanguage, msg.audioFormat⟩
          (goMapSet sessions sessionId
            ⟨sessionId, msg.sourceLanguage, msg.targetLanguage, msg.audioFormat⟩)) := by
  have hne : key ≠ [] := by
    intro h
    rw [h] at hkey
    simp at hkey
  have hmain : wsHandlerSetup sessionId key region (some msg) sessions =
      .ready ⟨sessionId, msg.sourceLanguage, msg.targetLanguage, msg.audioFormat⟩
        (goMapSet sessions sessionId
          ⟨sessionId, msg.sourceLanguage, msg.targetLanguage, msg.audioFormat⟩) := by
    unfold wsHandlerSetup
    rw [if_neg (not_lt.mpr hkey), if_neg hne, if_neg hreg]
  exact ⟨hmain, fun _ _ => hmain⟩

/-- Witness for `wsHandler_skips_validation` at an invalid setup frame
(empty languages, unsupported audio format) under a five-byte key. -/
theorem wsHandler_skips_validation_witness :
    5 ≤ (gs "key01").length ∧ gs "westus" ≠ [] ∧
    wsHandlerSetup (gs "s1") (gs "key01") (gs "westus")
        (some ⟨[], [], gs "mp4"⟩) [] =
      .ready ⟨gs "s1", [], [], gs "mp4"⟩ [(gs "s1", ⟨gs "s1", [], [], gs "mp4"⟩)] :=
  ⟨by decide, by decide,
   (wsHandler_skips_validation (gs "s1") (gs "key01") (gs "westus")
     ⟨[], [], gs "mp4"⟩ [] (by decide) (by decide)).1⟩

/-- Claim C8 counterexample: with a five-byte subscription key, a setup
frame with unsupported languages and audio format is rejected by
`StreamingTranslationRequest.Validate`, yet the WebSocket handler still
constructs the session and reports ready — an invalid setup frame DOES
produce a ready session. -/
theorem wsHandler_ready_on_invalid_setup :
    validateStreamingRequest ⟨gs "xx", gs "yy", gs "mp4"⟩
      = .error (gs "unsupported source language") ∧
    wsHandlerSetup (gs "s1") (gs "key01") (gs "westus")
        (some ⟨gs "xx", gs "yy", gs "mp4"⟩) []
      = .ready ⟨gs "s1", gs "xx", gs "yy", gs "mp4"⟩
          [(gs "s1", ⟨gs "s1", gs "xx", gs "yy", gs "mp4"⟩)] := by
  refine ⟨rfl, rfl⟩

theorem goMapGet_set {α : Type} (m : List (GoStr × α)) (k : GoStr) (v : α) :
    goMapGet (goMapSet m k v) k = some v := by
  induction m with
  | nil => simp [goMapGet, goMapSet, List.lookup]
  | cons kv rest ih =>
    obtain ⟨k', v'⟩ := kv
    by_cases hk : k' = k
    · simp [goMapSet, hk, goMapGet, List.lookup]
    · have hb : (k == k') = false := beq_eq_false_iff_ne.mpr (Ne.symm hk)
      simp [goMapSet, hk, goMapGet, List.lookup, hb]
      simpa [goMapGet] using ih

/-- Claim C9 (amended): registry insertion is an unconditional Go map
assignment: inserting under an id that is already present SUCCEEDS and
overwrites the existing entry, and `StartStreamingSession` stores its
record without any existing-id check — so a second start/insert with
the same id succeeds rather than failing. -/
theorem registry_insert_overwrites :
    (∀ (m : List (GoStr × StreamingSession)) (k : GoStr) (v1 v2 : StreamingSession),
      goMapGet (goMapSet (goMapSet m k v1) k v2) k = some v2) ∧
    (∀ (sessions : List (GoStr × StreamingSession)) (id src tgt fmt : GoStr),
      startStreamingSession true sessions id src tgt fmt =
        .ok (id, goMapSet sessions id ⟨id, src, tgt, fmt⟩)) :=
  ⟨fun m k v1 v2 => goMapGet_set (goMapSet m k v1) k v2,
   fun _ _ _ _ _ => rfl⟩

/-- Claim C9 counterexample: two start/insert operations under the same
id `"s"`: the second call succeeds (returning `.ok`, not an error) and
replaces the first session record in the registry. -/
theorem second_insert_same_id_succeeds :
    startStreamingSession true [] (gs "s") (gs "ja") (gs "en") (gs "wav")
      = .ok (gs "s", [(gs "s", ⟨gs "s", gs "ja", gs "en", gs "wav"⟩)]) ∧
    startStreamingSession true [(gs "s", ⟨gs "s", gs "ja", gs "en", gs "wav"⟩)]
        (gs "s") (gs "fr") (gs "de") (gs "mp3")
      = .ok (gs "s", [(gs "s", ⟨gs "s", gs "fr", gs "de", gs "mp3"⟩)]) ∧
    goMapGet [(gs "s", (⟨gs "s", gs "fr", gs "de", gs "mp3"⟩ : StreamingSession))] (gs "s")
      = some ⟨gs "s", gs "fr", gs "de", gs "mp3"⟩ := by
  refine ⟨rfl, rfl, rfl⟩

end SpeechGateway
